import Mathlib

/-!
Verification of `scale-tests/deploy-dispatchers.py`.

The script deploys `num_dispatchers` instances of a Spark dispatcher service.
For each index `i` it derives a service name and two role names, optionally
reconciles a drivers quota and an executors quota on the control plane,
overwrites the `service.name` and `service.role` slots of a shared options
mapping, submits a non-blocking install, and appends one CSV record to an
output file.

Shallow embedding: control-plane effects are modelled as a state machine
over `St`.  Each control-plane call is numbered by the counter `ctr`; a
fault oracle `f : Nat → Bool` decides whether call number `n` raises a
control-plane error (the Python `raise_on_error=True` / exception path).
Successful calls append an `Event` to the trace and update the registries;
a failing call only consumes its sequence number.  The output file is the
list `outLines`; opening it with mode "w" resets the list.  `sys.stdout`
is modelled by the `stdout` field.
-/

namespace DeployDispatchers

/-- One quota registered on the control plane: role name plus the resource
spec strings interpolated into `spark quota create -c _ -g _ -m _ name`. -/
structure Quota where
  role : String
  cpus : String
  gpus : String
  mem  : String
deriving DecidableEq, Repr

/-- Where `sys.stdout` currently points: the real stream, or the
`/dev/null` handle installed by `no_stdout`. -/
inductive StdoutTarget
  | real
  | devNull
deriving DecidableEq, Repr

/-- The `service` sub-dictionary of the options mapping.  The deployment
loop assigns only `name` and `role`; every other `service.*` entry is kept
opaquely in `other`. -/
structure ServiceConf where
  name : String
  role : String
  other : List (String × String)
deriving DecidableEq, Repr

/-- The options mapping passed to `deploy_dispatchers` (either loaded from
the `--options-json` file or built by `get_default_options`).  Only the
`service` section is ever touched by the loop; the `security`/`hdfs`
sections are kept opaquely in `other`. -/
structure Config where
  service : ServiceConf
  other : List (String × String)
deriving DecidableEq, Repr

/-- A successful control-plane call, recorded in order of execution. -/
inductive Event
  | cliInstall (pkg : String)
  | quotaList
  | quotaRemove (name : String)
  | quotaCreate (name cpus gpus mem : String)
  | repoList
  | repoAdd (name url : String)
  | install (pkg svc : String)
deriving DecidableEq, Repr

/-- A control-plane error carrying the sequence number of the failing
call (the Python exception raised by `shakedown` / `sdk_install`). -/
inductive Err
  | controlPlane (n : Nat)
deriving DecidableEq, Repr

/-- Program state: the control-plane registries, the trace of successful
calls, the call counter, the output file contents, the shared mutable
options mapping, and the current `sys.stdout` target. -/
structure St where
  ctr : Nat
  quotas : List Quota
  repos : List (String × String)
  installs : List (String × String × Config)
  events : List Event
  outLines : List String
  options : Config
  stdout : StdoutTarget
deriving DecidableEq, Repr

/-- `shakedown.run_dcos_command("package install spark --cli --yes")`:
note the hard-coded package name `"spark"` in the command string. -/
def cliInstallCall (f : Nat → Bool) (s : St) : Except Err Unit × St :=
  if f s.ctr then
    (Except.error (Err.controlPlane s.ctr), { s with ctr := s.ctr + 1 })
  else
    (Except.ok (),
     { s with
       ctr := s.ctr + 1,
       events := s.events ++ [Event.cliInstall "spark"] })

/-- `shakedown.run_dcos_command("spark quota list --json")` followed by
`json.loads`: returns the current quota infos. -/
def quotaListCall (f : Nat → Bool) (s : St) : Except Err (List Quota) × St :=
  if f s.ctr then
    (Except.error (Err.controlPlane s.ctr), { s with ctr := s.ctr + 1 })
  else
    (Except.ok s.quotas,
     { s with
       ctr := s.ctr + 1,
       events := s.events ++ [Event.quotaList] })

/-- `shakedown.run_dcos_command("spark quota remove {name}")`. -/
def quotaRemoveCall (f : Nat → Bool) (name : String) (s : St) :
    Except Err Unit × St :=
  if f s.ctr then
    (Except.error (Err.controlPlane s.ctr), { s with ctr := s.ctr + 1 })
  else
    (Except.ok (),
     { s with
       ctr := s.ctr + 1,
       quotas := s.quotas.filter (fun q => !(q.role == name)),
       events := s.events ++ [Event.quotaRemove name] })

/-- `shakedown.run_dcos_command("spark quota create -c {} -g {} -m {} {}")`. -/
def quotaCreateCall (f : Nat → Bool) (name cpus gpus mem : String) (s : St) :
    Except Err Unit × St :=
  if f s.ctr then
    (Except.error (Err.controlPlane s.ctr), { s with ctr := s.ctr + 1 })
  else
    (Except.ok (),
     { s with
       ctr := s.ctr + 1,
       quotas := s.quotas ++ [⟨name, cpus, gpus, mem⟩],
       events := s.events ++ [Event.quotaCreate name cpus gpus mem] })

/-- `shakedown.get_package_repos()`: returns the registered repositories. -/
def getPackageRepos (f : Nat → Bool) (s : St) :
    Except Err (List (String × String)) × St :=
  if f s.ctr then
    (Except.error (Err.controlPlane s.ctr), { s with ctr := s.ctr + 1 })
  else
    (Except.ok s.repos,
     { s with
       ctr := s.ctr + 1,
       events := s.events ++ [Event.repoList] })

/-- `shakedown.add_package_repo(repo_name, repo_url)`. -/
def addPackageRepo (f : Nat → Bool) (name url : String) (s : St) :
    Except Err Unit × St :=
  if f s.ctr then
    (Except.error (Err.controlPlane s.ctr), { s with ctr := s.ctr + 1 })
  else
    (Except.ok (),
     { s with
       ctr := s.ctr + 1,
       repos := s.repos ++ [(name, url)],
       events := s.events ++ [Event.repoAdd name url] })

/-- `sdk_install.install(pkg, service_name, 0, additional_options=options,
wait_for_deployment=False)`: records the package, service name, and a
snapshot of the shared options mapping at submission time. -/
def installCall (f : Nat → Bool) (pkg svc : String) (s : St) :
    Except Err Unit × St :=
  if f s.ctr then
    (Except.error (Err.controlPlane s.ctr), { s with ctr := s.ctr + 1 })
  else
    (Except.ok (),
     { s with
       ctr := s.ctr + 1,
       installs := s.installs ++ [(pkg, svc, s.options)],
       events := s.events ++ [Event.install pkg svc] })


/-- Sequencing with exception propagation: run `m`; on success feed its
result to `k`, on a raised error stop with the error (the state at the
point of failure is kept, matching Python exception propagation). -/
def seqE {α β : Type} (m : St → Except Err α × St)
    (k : α → St → Except Err β × St) (s : St) : Except Err β × St :=
  match m s with
  | (Except.error e, s') => (Except.error e, s')
  | (Except.ok a, s') => k a s'

/-- The empty statement: succeeds and leaves the state unchanged. -/
def skip (s : St) : Except Err Unit × St := (Except.ok (), s)

/-- The `no_stdout` context manager (a `@contextlib.contextmanager`
generator with no try/finally): save `sys.stdout`, point it at
`/dev/null`, run the body; the restoring assignment after the `yield`
runs only when the body completes normally — if the body raises, the
exception propagates and `sys.stdout` is left unrestored. -/
def no_stdout {α : Type} (body : St → Except Err α × St) (s : St) :
    Except Err α × St :=
  match body { s with stdout := StdoutTarget.devNull } with
  | (Except.ok a, s') => (Except.ok a, { s' with stdout := s.stdout })
  | (Except.error e, s') => (Except.error e, s')

/-- `create_quota(name, cpus, gpus, mem)`: list existing quotas (with
stdout suppressed while the list command runs), remove a quota whose
role matches `name` if one exists, then create the quota with the given
spec. -/
def create_quota (f : Nat → Bool) (name cpus gpus mem : String) :
    St → Except Err Unit × St :=
  seqE (no_stdout (quotaListCall f)) (fun existing =>
    seqE (fun s => if name ∈ existing.map Quota.role
                   then quotaRemoveCall f name s
                   else skip s) (fun _ =>
      quotaCreateCall f name cpus gpus mem))

/-- The per-run parameters of `deploy_dispatchers` (the request), minus
`num_dispatchers`, `output_file` and the options mapping, which are
passed separately. -/
structure Params where
  service_name_base : String
  package_name : String
  package_repo : Option String
  create_quotas : Bool
  quota_drivers_cpus : String
  quota_drivers_gpus : String
  quota_drivers_mem : String
  quota_executors_cpus : String
  quota_executors_gpus : String
  quota_executors_mem : String
deriving DecidableEq, Repr

/-- Naming: `service_name = base ++ "-" ++ str(i)`. -/
def svcName (base : String) (i : Nat) : String := base ++ "-" ++ toString i

/-- Naming: `drivers_role = service_name ++ "-drivers-role"`. -/
def drvRole (base : String) (i : Nat) : String := svcName base i ++ "-drivers-role"

/-- Naming: `executors_role = service_name ++ "-executors-role"`. -/
def exeRole (base : String) (i : Nat) : String := svcName base i ++ "-executors-role"

/-- One output-file line: `service_name,drivers_role,executors_role\n`. -/
def record (base : String) (i : Nat) : String :=
  svcName base i ++ "," ++ drvRole base i ++ "," ++ exeRole base i ++ "\n"

/-- Overwrite the `service.name` slot of the options mapping. -/
def withName (c : Config) (nm : String) : Config :=
  { c with service := { c.service with name := nm } }

/-- Overwrite the `service.role` slot of the options mapping. -/
def withRole (c : Config) (rl : String) : Config :=
  { c with service := { c.service with role := rl } }

/-- Overwrite both mutable slots: name, then role. -/
def withNR (c : Config) (nm rl : String) : Config := withRole (withName c nm) rl

/-- `options["service"]["name"] = nm`. -/
def setSvcName (s : St) (nm : String) : St :=
  { s with options := withName s.options nm }

/-- `options["service"]["role"] = rl`. -/
def setSvcRole (s : St) (rl : String) : St :=
  { s with options := withRole s.options rl }

/-- The repository check-and-register step (source lines 111–115): when a
package repo URL is configured, list the known repositories and register
the URL under the name `base ++ "-repo"` unless some repository already
has that URL. -/
def repoStep (f : Nat → Bool) (base : String) (repo : Option String) :
    St → Except Err Unit × St :=
  match repo with
  | none => skip
  | some url =>
    seqE (getPackageRepos f) (fun repos s =>
      if url ∈ repos.map Prod.snd then skip s
      else addPackageRepo f (base ++ "-repo") url s)

/-- The quota part of one iteration: when `create_quotas` is set, call
`create_quota` for the drivers role and then for the executors role;
otherwise do nothing. -/
def quotaStep (f : Nat → Bool) (p : Params) (drivers executors : String) :
    St → Except Err Unit × St :=
  if p.create_quotas then
    seqE (create_quota f drivers p.quota_drivers_cpus p.quota_drivers_gpus
            p.quota_drivers_mem) (fun _ =>
      create_quota f executors p.quota_executors_cpus p.quota_executors_gpus
        p.quota_executors_mem)
  else skip

/-- `outfile.write("{},{},{}\n".format(service_name, drivers_role,
executors_role))`. -/
def writeRecord (base : String) (i : Nat) (s : St) : Except Err Unit × St :=
  (Except.ok (), { s with outLines := s.outLines ++ [record base i] })

/-- One iteration of the deployment loop for index `i`: set
`service.name`, check/register the repo, reconcile the two quotas when
enabled, set `service.role := drivers_role` (unconditionally, as in the
source, where the assignment sits outside the `if create_quotas:`
block), submit the install, and append the CSV record. -/
def loopBody (f : Nat → Bool) (p : Params) (i : Nat) :
    St → Except Err Unit × St :=
  seqE (fun s => repoStep f p.service_name_base p.package_repo
                   (setSvcName s (svcName p.service_name_base i))) (fun _ =>
    seqE (quotaStep f p (drvRole p.service_name_base i)
            (exeRole p.service_name_base i)) (fun _ =>
      seqE (fun s => installCall f p.package_name (svcName p.service_name_base i)
                       (setSvcRole s (drvRole p.service_name_base i))) (fun _ =>
        writeRecord p.service_name_base i)))

/-- The loop `for i in range(0, num_dispatchers)`, started at index `i`
with `n` iterations remaining; stops at the first raised error. -/
def loopFrom (f : Nat → Bool) (p : Params) : Nat → Nat → St → Except Err Unit × St
  | _, 0 => skip
  | i, n + 1 => seqE (loopBody f p i) (fun _ => loopFrom f p (i + 1) n)

/-- `deploy_dispatchers`: open the output file with mode "w" (truncating
it), run the one-time CLI bootstrap, then the deployment loop. -/
def deploy_dispatchers (f : Nat → Bool) (p : Params) (n : Nat) (s : St) :
    Except Err Unit × St :=
  seqE (cliInstallCall f) (fun _ => loopFrom f p 0 n) { s with outLines := [] }

/-- The `__main__` options-file handling: if `--options-json` is truthy
(present and non-empty), the file must exist, otherwise the process
exits with a configuration error (`none`) before anything else runs;
the options then come from the file, or from `get_default_options` when
the flag is absent or empty.  `fs` is the file-existence oracle
(`os.path.isfile`) and `load` the JSON-load oracle. -/
def main_run (f : Nat → Bool) (fs : String → Bool) (load : String → Config)
    (defaults : Config) (options_json : Option String) (p : Params) (n : Nat)
    (s : St) : Option (Except Err Unit) × St :=
  match options_json with
  | none =>
    let r := deploy_dispatchers f p n { s with options := defaults }
    (some r.1, r.2)
  | some fpath =>
    if fpath = "" then
      let r := deploy_dispatchers f p n { s with options := defaults }
      (some r.1, r.2)
    else if fs fpath then
      let r := deploy_dispatchers f p n { s with options := load fpath }
      (some r.1, r.2)
    else (none, s)

/-- Is an event a CLI bootstrap installation? -/
def isCli : Event → Bool
  | Event.cliInstall _ => true
  | _ => false

/-- Number of CLI bootstrap installations in a trace. -/
def countCli (es : List Event) : Nat := (es.filter isCli).length

/-- The output records written by iterations `i, i+1, ..., i+n-1`. -/
def recordsFrom (base : String) : Nat → Nat → List String
  | _, 0 => []
  | i, n + 1 => record base i :: recordsFrom base (i + 1) n

/-- The install submissions issued by iterations `i, ..., i+n-1` when
the options mapping holds `c` at entry to iteration `i`. -/
def installsFrom (pkg base : String) (c : Config) :
    Nat → Nat → List (String × String × Config)
  | _, 0 => []
  | i, n + 1 =>
    (pkg, svcName base i, withNR c (svcName base i) (drvRole base i))
      :: installsFrom pkg base c (i + 1) n

/-! ### Sequencing lemmas -/

theorem seqE_ok {α β : Type} {m : St → Except Err α × St}
    {k : α → St → Except Err β × St} {s : St} {a : α} {s1 : St}
    (h : m s = (Except.ok a, s1)) : seqE m k s = k a s1 := by
  unfold seqE
  rw [h]

theorem seqE_err {α β : Type} {m : St → Except Err α × St}
    {k : α → St → Except Err β × St} {s : St} {e : Err} {s1 : St}
    (h : m s = (Except.error e, s1)) : seqE m k s = (Except.error e, s1) := by
  unfold seqE
  rw [h]

theorem seqE_cases {α β : Type} {m : St → Except Err α × St}
    {k : α → St → Except Err β × St} {s : St} {r : Except Err β} {s' : St}
    (h : seqE m k s = (r, s')) :
    (∃ e, m s = (Except.error e, s') ∧ r = Except.error e) ∨
    (∃ a s1, m s = (Except.ok a, s1) ∧ k a s1 = (r, s')) := by
  unfold seqE at h
  split at h
  next e s2 heq =>
    injection h with h1 h2
    subst h2
    exact Or.inl ⟨e, heq, h1.symm⟩
  next a s2 heq =>
    exact Or.inr ⟨a, s2, heq, h⟩

/-! ### Frame (preservation) machinery

`Pres g m` says the computation `m` never changes the component `g` of
the state, whether it succeeds or raises. -/

def Pres {α γ : Type} (g : St → γ) (m : St → Except Err α × St) : Prop :=
  ∀ s, g (m s).2 = g s

theorem pres_seqE {α β γ : Type} {g : St → γ} {m : St → Except Err α × St}
    {k : α → St → Except Err β × St} (hm : Pres g m)
    (hk : ∀ a, Pres g (k a)) : Pres g (seqE m k) := by
  intro s
  unfold seqE
  cases hms : m s with
  | mk r s1 =>
    have h1 := hm s
    rw [hms] at h1
    cases r with
    | error e => exact h1
    | ok a => exact (hk a s1).trans h1

theorem pres_skip {γ : Type} {g : St → γ} : Pres g skip := fun _ => rfl

theorem pres_ite {α γ : Type} {g : St → γ} {c : Prop} [Decidable c]
    {m k : St → Except Err α × St} (hm : Pres g m) (hk : Pres g k) :
    Pres g (fun s => if c then m s else k s) := by
  intro s
  by_cases h : c
  · simp only [if_pos h]
    exact hm s
  · simp only [if_neg h]
    exact hk s

theorem pres_no_stdout {α γ : Type} {g : St → γ} {body : St → Except Err α × St}
    (hstd : ∀ s d, g { s with stdout := d } = g s) (hb : Pres g body) :
    Pres g (no_stdout body) := by
  intro s
  unfold no_stdout
  cases hbs : body { s with stdout := StdoutTarget.devNull } with
  | mk r s1 =>
    have h1 := hb { s with stdout := StdoutTarget.devNull }
    rw [hbs] at h1
    cases r with
    | error e => exact h1.trans (hstd s StdoutTarget.devNull)
    | ok a => exact (hstd s1 s.stdout).trans (h1.trans (hstd s StdoutTarget.devNull))

theorem cliInstallCall_out (f : Nat → Bool) : Pres St.outLines (cliInstallCall f) := by
  intro s
  unfold cliInstallCall
  split <;> rfl

theorem cliInstallCall_inst (f : Nat → Bool) : Pres St.installs (cliInstallCall f) := by
  intro s
  unfold cliInstallCall
  split <;> rfl

theorem cliInstallCall_opt (f : Nat → Bool) : Pres St.options (cliInstallCall f) := by
  intro s
  unfold cliInstallCall
  split <;> rfl

theorem quotaListCall_out (f : Nat → Bool) : Pres St.outLines (quotaListCall f) := by
  intro s
  unfold quotaListCall
  split <;> rfl

theorem quotaListCall_inst (f : Nat → Bool) : Pres St.installs (quotaListCall f) := by
  intro s
  unfold quotaListCall
  split <;> rfl

theorem quotaListCall_opt (f : Nat → Bool) : Pres St.options (quotaListCall f) := by
  intro s
  unfold quotaListCall
  split <;> rfl

theorem quotaRemoveCall_out (f : Nat → Bool) (nm : String) :
    Pres St.outLines (quotaRemoveCall f nm) := by
  intro s
  unfold quotaRemoveCall
  split <;> rfl

theorem quotaRemoveCall_inst (f : Nat → Bool) (nm : String) :
    Pres St.installs (quotaRemoveCall f nm) := by
  intro s
  unfold quotaRemoveCall
  split <;> rfl

theorem quotaRemoveCall_opt (f : Nat → Bool) (nm : String) :
    Pres St.options (quotaRemoveCall f nm) := by
  intro s
  unfold quotaRemoveCall
  split <;> rfl

theorem quotaCreateCall_out (f : Nat → Bool) (nm cp gp me : String) :
    Pres St.outLines (quotaCreateCall f nm cp gp me) := by
  intro s
  unfold quotaCreateCall
  split <;> rfl

theorem quotaCreateCall_inst (f : Nat → Bool) (nm cp gp me : String) :
    Pres St.installs (quotaCreateCall f nm cp gp me) := by
  intro s
  unfold quotaCreateCall
  split <;> rfl

theorem quotaCreateCall_opt (f : Nat → Bool) (nm cp gp me : String) :
    Pres St.options (quotaCreateCall f nm cp gp me) := by
  intro s
  unfold quotaCreateCall
  split <;> rfl

theorem getPackageRepos_out (f : Nat → Bool) : Pres St.outLines (getPackageRepos f) := by
  intro s
  unfold getPackageRepos
  split <;> rfl

theorem getPackageRepos_inst (f : Nat → Bool) : Pres St.installs (getPackageRepos f) := by
  intro s
  unfold getPackageRepos
  split <;> rfl

theorem getPackageRepos_opt (f : Nat → Bool) : Pres St.options (getPackageRepos f) := by
  intro s
  unfold getPackageRepos
  split <;> rfl

theorem addPackageRepos_out (f : Nat → Bool) (nm url : String) :
    Pres St.outLines (addPackageRepo f nm url) := by
  intro s
  unfold addPackageRepo
  split <;> rfl

theorem addPackageRepos_inst (f : Nat → Bool) (nm url : String) :
    Pres St.installs (addPackageRepo f nm url) := by
  intro s
  unfold addPackageRepo
  split <;> rfl

theorem addPackageRepos_opt (f : Nat → Bool) (nm url : String) :
    Pres St.options (addPackageRepo f nm url) := by
  intro s
  unfold addPackageRepo
  split <;> rfl

theorem installCall_out (f : Nat → Bool) (pkg svc : String) :
    Pres St.outLines (installCall f pkg svc) := by
  intro s
  unfold installCall
  split <;> rfl

theorem installCall_opt (f : Nat → Bool) (pkg svc : String) :
    Pres St.options (installCall f pkg svc) := by
  intro s
  unfold installCall
  split <;> rfl

theorem repoStep_out (f : Nat → Bool) (base : String) (repo : Option String) :
    Pres St.outLines (repoStep f base repo) := by
  cases repo with
  | none => exact pres_skip
  | some url =>
    exact pres_seqE (getPackageRepos_out f)
      (fun repos => pres_ite pres_skip (addPackageRepos_out f (base ++ "-repo") url))

theorem repoStep_inst (f : Nat → Bool) (base : String) (repo : Option String) :
    Pres St.installs (repoStep f base repo) := by
  cases repo with
  | none => exact pres_skip
  | some url =>
    exact pres_seqE (getPackageRepos_inst f)
      (fun repos => pres_ite pres_skip (addPackageRepos_inst f (base ++ "-repo") url))

theorem repoStep_opt (f : Nat → Bool) (base : String) (repo : Option String) :
    Pres St.options (repoStep f base repo) := by
  cases repo with
  | none => exact pres_skip
  | some url =>
    exact pres_seqE (getPackageRepos_opt f)
      (fun repos => pres_ite pres_skip (addPackageRepos_opt f (base ++ "-repo") url))

theorem create_quota_out (f : Nat → Bool) (nm cp gp me : String) :
    Pres St.outLines (create_quota f nm cp gp me) := by
  unfold create_quota
  exact pres_seqE (pres_no_stdout (fun _ _ => rfl) (quotaListCall_out f))
    (fun existing => pres_seqE (pres_ite (quotaRemoveCall_out f nm) pres_skip)
      (fun _ => quotaCreateCall_out f nm cp gp me))

theorem create_quota_inst (f : Nat → Bool) (nm cp gp me : String) :
    Pres St.installs (create_quota f nm cp gp me) := by
  unfold create_quota
  exact pres_seqE (pres_no_stdout (fun _ _ => rfl) (quotaListCall_inst f))
    (fun existing => pres_seqE (pres_ite (quotaRemoveCall_inst f nm) pres_skip)
      (fun _ => quotaCreateCall_inst f nm cp gp me))

theorem create_quota_opt (f : Nat → Bool) (nm cp gp me : String) :
    Pres St.options (create_quota f nm cp gp me) := by
  unfold create_quota
  exact pres_seqE (pres_no_stdout (fun _ _ => rfl) (quotaListCall_opt f))
    (fun existing => pres_seqE (pres_ite (quotaRemoveCall_opt f nm) pres_skip)
      (fun _ => quotaCreateCall_opt f nm cp gp me))

theorem quotaStep_out (f : Nat → Bool) (p : Params) (dr ex : String) :
    Pres St.outLines (quotaStep f p dr ex) := by
  unfold quotaStep
  split
  · exact pres_seqE (create_quota_out f dr _ _ _) (fun _ => create_quota_out f ex _ _ _)
  · exact pres_skip

theorem quotaStep_inst (f : Nat → Bool) (p : Params) (dr ex : String) :
    Pres St.installs (quotaStep f p dr ex) := by
  unfold quotaStep
  split
  · exact pres_seqE (create_quota_inst f dr _ _ _) (fun _ => create_quota_inst f ex _ _ _)
  · exact pres_skip

theorem quotaStep_opt (f : Nat → Bool) (p : Params) (dr ex : String) :
    Pres St.options (quotaStep f p dr ex) := by
  unfold quotaStep
  split
  · exact pres_seqE (create_quota_opt f dr _ _ _) (fun _ => create_quota_opt f ex _ _ _)
  · exact pres_skip

/-! ### Trace extension without CLI bootstraps

`QuietExt m` says `m` only ever appends events to the trace, none of
which is a CLI bootstrap installation — whether it succeeds or raises. -/

theorem countCli_append (a b : List Event) :
    countCli (a ++ b) = countCli a + countCli b := by
  simp [countCli, List.filter_append]

def QuietExt {α : Type} (m : St → Except Err α × St) : Prop :=
  ∀ s, ∃ les, (m s).2.events = s.events ++ les ∧ countCli les = 0

theorem quietExt_seqE {α β : Type} {m : St → Except Err α × St}
    {k : α → St → Except Err β × St} (hm : QuietExt m)
    (hk : ∀ a, QuietExt (k a)) : QuietExt (seqE m k) := by
  intro s
  unfold seqE
  cases hms : m s with
  | mk r s1 =>
    obtain ⟨l1, he1, hc1⟩ := hm s
    rw [hms] at he1
    cases r with
    | error e => exact ⟨l1, he1, hc1⟩
    | ok a =>
      obtain ⟨l2, he2, hc2⟩ := hk a s1
      refine ⟨l1 ++ l2, ?_, ?_⟩
      · rw [he2, he1, List.append_assoc]
      · rw [countCli_append, hc1, hc2]

theorem quietExt_skip : QuietExt skip := by
  intro s
  exact ⟨[], (List.append_nil s.events).symm, rfl⟩

theorem quietExt_ite {α : Type} {c : Prop} [Decidable c]
    {m k : St → Except Err α × St} (hm : QuietExt m) (hk : QuietExt k) :
    QuietExt (fun s => if c then m s else k s) := by
  intro s
  by_cases h : c
  · simp only [if_pos h]
    exact hm s
  · simp only [if_neg h]
    exact hk s

theorem quietExt_no_stdout {α : Type} {body : St → Except Err α × St}
    (hb : QuietExt body) : QuietExt (no_stdout body) := by
  intro s
  unfold no_stdout
  cases hbs : body { s with stdout := StdoutTarget.devNull } with
  | mk r s1 =>
    obtain ⟨l, he, hc⟩ := hb { s with stdout := StdoutTarget.devNull }
    rw [hbs] at he
    cases r with
    | error e => exact ⟨l, he, hc⟩
    | ok a => exact ⟨l, he, hc⟩

theorem quietExt_quotaListCall (f : Nat → Bool) : QuietExt (quotaListCall f) := by
  intro s
  unfold quotaListCall
  split
  · exact ⟨[], by simp, rfl⟩
  · exact ⟨[Event.quotaList], rfl, rfl⟩

theorem quietExt_quotaRemoveCall (f : Nat → Bool) (nm : String) :
    QuietExt (quotaRemoveCall f nm) := by
  intro s
  unfold quotaRemoveCall
  split
  · exact ⟨[], by simp, rfl⟩
  · exact ⟨[Event.quotaRemove nm], rfl, rfl⟩

theorem quietExt_quotaCreateCall (f : Nat → Bool) (nm cp gp me : String) :
    QuietExt (quotaCreateCall f nm cp gp me) := by
  intro s
  unfold quotaCreateCall
  split
  · exact ⟨[], by simp, rfl⟩
  · exact ⟨[Event.quotaCreate nm cp gp me], rfl, rfl⟩

theorem quietExt_getPackageRepos (f : Nat → Bool) : QuietExt (getPackageRepos f) := by
  intro s
  unfold getPackageRepos
  split
  · exact ⟨[], by simp, rfl⟩
  · exact ⟨[Event.repoList], rfl, rfl⟩

theorem quietExt_addPackageRepo (f : Nat → Bool) (nm url : String) :
    QuietExt (addPackageRepo f nm url) := by
  intro s
  unfold addPackageRepo
  split
  · exact ⟨[], by simp, rfl⟩
  · exact ⟨[Event.repoAdd nm url], rfl, rfl⟩

theorem quietExt_installCall (f : Nat → Bool) (pkg svc : String) :
    QuietExt (installCall f pkg svc) := by
  intro s
  unfold installCall
  split
  · exact ⟨[], by simp, rfl⟩
  · exact ⟨[Event.install pkg svc], rfl, rfl⟩

theorem quietExt_writeRecord (base : String) (i : Nat) :
    QuietExt (writeRecord base i) := by
  intro s
  exact ⟨[], by simp [writeRecord], rfl⟩

theorem quietExt_repoStep (f : Nat → Bool) (base : String) (repo : Option String) :
    QuietExt (repoStep f base repo) := by
  cases repo with
  | none => exact quietExt_skip
  | some url =>
    exact quietExt_seqE (quietExt_getPackageRepos f)
      (fun repos => quietExt_ite quietExt_skip
        (quietExt_addPackageRepo f (base ++ "-repo") url))

theorem quietExt_create_quota (f : Nat → Bool) (nm cp gp me : String) :
    QuietExt (create_quota f nm cp gp me) := by
  unfold create_quota
  exact quietExt_seqE (quietExt_no_stdout (quietExt_quotaListCall f))
    (fun existing => quietExt_seqE
      (quietExt_ite (quietExt_quotaRemoveCall f nm) quietExt_skip)
      (fun _ => quietExt_quotaCreateCall f nm cp gp me))

theorem quietExt_quotaStep (f : Nat → Bool) (p : Params) (dr ex : String) :
    QuietExt (quotaStep f p dr ex) := by
  unfold quotaStep
  split
  · exact quietExt_seqE (quietExt_create_quota f dr _ _ _)
      (fun _ => quietExt_create_quota f ex _ _ _)
  · exact quietExt_skip

theorem quietExt_loopBody (f : Nat → Bool) (p : Params) (i : Nat) :
    QuietExt (loopBody f p i) := by
  unfold loopBody
  refine quietExt_seqE ?_ (fun _ => quietExt_seqE (quietExt_quotaStep f p _ _)
    (fun _ => quietExt_seqE ?_ (fun _ => quietExt_writeRecord _ i)))
  · intro s
    exact quietExt_repoStep f p.service_name_base p.package_repo
      (setSvcName s (svcName p.service_name_base i))
  · intro s
    exact quietExt_installCall f p.package_name (svcName p.service_name_base i)
      (setSvcRole s (drvRole p.service_name_base i))

theorem quietExt_loopFrom (f : Nat → Bool) (p : Params) :
    ∀ n i, QuietExt (loopFrom f p i n) := by
  intro n
  induction n with
  | zero => intro i; exact quietExt_skip
  | succ n ih =>
    intro i
    exact quietExt_seqE (quietExt_loopBody f p i) (fun _ => ih (i + 1))

/-! ### Success characterizations of the primitive calls -/

theorem cliInstallCall_ok {f : Nat → Bool} {s : St} {a : Unit} {s' : St}
    (h : cliInstallCall f s = (Except.ok a, s')) :
    s' = { s with ctr := s.ctr + 1,
                  events := s.events ++ [Event.cliInstall "spark"] } := by
  unfold cliInstallCall at h
  split at h
  · injection h with h1 h2
    exact Except.noConfusion h1
  · injection h with h1 h2
    exact h2.symm

theorem installCall_ok {f : Nat → Bool} {pkg svc : String} {s : St} {a : Unit}
    {s' : St} (h : installCall f pkg svc s = (Except.ok a, s')) :
    s' = { s with ctr := s.ctr + 1,
                  installs := s.installs ++ [(pkg, svc, s.options)],
                  events := s.events ++ [Event.install pkg svc] } := by
  unfold installCall at h
  split at h
  · injection h with h1 h2
    exact Except.noConfusion h1
  · injection h with h1 h2
    exact h2.symm

theorem writeRecord_ok {base : String} {i : Nat} {s : St} {r : Except Err Unit}
    {s' : St} (h : writeRecord base i s = (r, s')) :
    r = Except.ok () ∧ s' = { s with outLines := s.outLines ++ [record base i] } := by
  unfold writeRecord at h
  injection h with h1 h2
  exact ⟨h1.symm, h2.symm⟩

/-! ### Characterization of one loop iteration -/

theorem withNR_withNR (c : Config) (a r nm rl : String) :
    withNR (withNR c a r) nm rl = withNR c nm rl := rfl

theorem installsFrom_withNR (pkg b : String) (c : Config) (a r : String) :
    ∀ n i, installsFrom pkg b (withNR c a r) i n = installsFrom pkg b c i n := by
  intro n
  induction n with
  | zero => intro i; rfl
  | succ n ih =>
    intro i
    unfold installsFrom
    rw [withNR_withNR, ih]

theorem loopBody_ok {f : Nat → Bool} {p : Params} {i : Nat} {s s' : St}
    (h : loopBody f p i s = (Except.ok (), s')) :
    s'.outLines = s.outLines ++ [record p.service_name_base i] ∧
    s'.installs = s.installs ++
      [(p.package_name, svcName p.service_name_base i,
        withNR s.options (svcName p.service_name_base i)
          (drvRole p.service_name_base i))] ∧
    s'.options = withNR s.options (svcName p.service_name_base i)
      (drvRole p.service_name_base i) := by
  unfold loopBody at h
  rcases seqE_cases h with ⟨e, h1, hr⟩ | ⟨a1, s1, h1, h⟩
  · exact Except.noConfusion hr
  · have h1' : repoStep f p.service_name_base p.package_repo
        (setSvcName s (svcName p.service_name_base i)) = (Except.ok a1, s1) := h1
    have o1 : s1.outLines = s.outLines := by
      have hp := repoStep_out f p.service_name_base p.package_repo
        (setSvcName s (svcName p.service_name_base i))
      rw [h1'] at hp
      exact hp
    have i1 : s1.installs = s.installs := by
      have hp := repoStep_inst f p.service_name_base p.package_repo
        (setSvcName s (svcName p.service_name_base i))
      rw [h1'] at hp
      exact hp
    have p1 : s1.options = withName s.options (svcName p.service_name_base i) := by
      have hp := repoStep_opt f p.service_name_base p.package_repo
        (setSvcName s (svcName p.service_name_base i))
      rw [h1'] at hp
      exact hp
    rcases seqE_cases h with ⟨e, h2, hr⟩ | ⟨a2, s2, h2, h⟩
    · exact Except.noConfusion hr
    · have o2 : s2.outLines = s1.outLines := by
        have hp := quotaStep_out f p (drvRole p.service_name_base i)
          (exeRole p.service_name_base i) s1
        rw [h2] at hp
        exact hp
      have i2 : s2.installs = s1.installs := by
        have hp := quotaStep_inst f p (drvRole p.service_name_base i)
          (exeRole p.service_name_base i) s1
        rw [h2] at hp
        exact hp
      have p2 : s2.options = s1.options := by
        have hp := quotaStep_opt f p (drvRole p.service_name_base i)
          (exeRole p.service_name_base i) s1
        rw [h2] at hp
        exact hp
      rcases seqE_cases h with ⟨e, h3, hr⟩ | ⟨a3, s3, h3, h4⟩
      · exact Except.noConfusion hr
      · have h3' : installCall f p.package_name (svcName p.service_name_base i)
            (setSvcRole s2 (drvRole p.service_name_base i)) = (Except.ok a3, s3) := h3
        have hc := installCall_ok h3'
        obtain ⟨hru, hs'⟩ := writeRecord_ok h4
        subst hs'
        subst hc
        refine ⟨?_, ?_, ?_⟩
        · show s2.outLines ++ [record p.service_name_base i]
            = s.outLines ++ [record p.service_name_base i]
          rw [o2, o1]
        · show s2.installs ++ [(p.package_name, svcName p.service_name_base i,
              withRole s2.options (drvRole p.service_name_base i))]
            = s.installs ++ [(p.package_name, svcName p.service_name_base i,
              withNR s.options (svcName p.service_name_base i)
                (drvRole p.service_name_base i))]
          rw [i2, i1, p2, p1]
          rfl
        · show withRole s2.options (drvRole p.service_name_base i)
            = withNR s.options (svcName p.service_name_base i)
              (drvRole p.service_name_base i)
          rw [p2, p1]
          rfl

theorem loopBody_err_out {f : Nat → Bool} {p : Params} {i : Nat} {s : St}
    {e : Err} {s' : St} (h : loopBody f p i s = (Except.error e, s')) :
    s'.outLines = s.outLines := by
  unfold loopBody at h
  rcases seqE_cases h with ⟨e1, h1, hr⟩ | ⟨a1, s1, h1, h⟩
  · have h1' : repoStep f p.service_name_base p.package_repo
        (setSvcName s (svcName p.service_name_base i)) = (Except.error e1, s') := h1
    have hp := repoStep_out f p.service_name_base p.package_repo
      (setSvcName s (svcName p.service_name_base i))
    rw [h1'] at hp
    exact hp
  · have h1' : repoStep f p.service_name_base p.package_repo
        (setSvcName s (svcName p.service_name_base i)) = (Except.ok a1, s1) := h1
    have o1 : s1.outLines = s.outLines := by
      have hp := repoStep_out f p.service_name_base p.package_repo
        (setSvcName s (svcName p.service_name_base i))
      rw [h1'] at hp
      exact hp
    rcases seqE_cases h with ⟨e2, h2, hr⟩ | ⟨a2, s2, h2, h⟩
    · have hp := quotaStep_out f p (drvRole p.service_name_base i)
        (exeRole p.service_name_base i) s1
      rw [h2] at hp
      exact hp.trans o1
    · have o2 : s2.outLines = s1.outLines := by
        have hp := quotaStep_out f p (drvRole p.service_name_base i)
          (exeRole p.service_name_base i) s1
        rw [h2] at hp
        exact hp
      rcases seqE_cases h with ⟨e3, h3, hr⟩ | ⟨a3, s3, h3, h4⟩
      · have h3' : installCall f p.package_name (svcName p.service_name_base i)
            (setSvcRole s2 (drvRole p.service_name_base i)) = (Except.error e3, s') := h3
        have hp := installCall_out f p.package_name (svcName p.service_name_base i)
          (setSvcRole s2 (drvRole p.service_name_base i))
        rw [h3'] at hp
        exact hp.trans (o2.trans o1)
      · obtain ⟨hru, _⟩ := writeRecord_ok h4
        exact Except.noConfusion hru

/-! ### The loop -/

theorem loopFrom_ok {f : Nat → Bool} {p : Params} :
    ∀ {n i : Nat} {s s' : St}, loopFrom f p i n s = (Except.ok (), s') →
    s'.outLines = s.outLines ++ recordsFrom p.service_name_base i n ∧
    s'.installs = s.installs
      ++ installsFrom p.package_name p.service_name_base s.options i n := by
  intro n
  induction n with
  | zero =>
    intro i s s' h
    have h' : (Except.ok (), s) = ((Except.ok (), s') : Except Err Unit × St) := h
    injection h' with h1 h2
    subst h2
    constructor
    · show s.outLines = s.outLines ++ []
      rw [List.append_nil]
    · show s.installs = s.installs ++ []
      rw [List.append_nil]
  | succ n ih =>
    intro i s s' h
    have h' : seqE (loopBody f p i) (fun _ => loopFrom f p (i + 1) n) s
        = (Except.ok (), s') := h
    rcases seqE_cases h' with ⟨e, h1, hr⟩ | ⟨a1, s1, h1, h2⟩
    · exact Except.noConfusion hr
    · cases a1
      obtain ⟨ho, hi, hp⟩ := loopBody_ok h1
      obtain ⟨ho', hi'⟩ := ih h2
      constructor
      · rw [ho', ho, List.append_assoc, List.singleton_append]
        rfl
      · rw [hi', hi, hp, installsFrom_withNR, List.append_assoc, List.singleton_append]
        rfl

theorem seqE_assoc {α β γ : Type} (m : St → Except Err α × St)
    (k : α → St → Except Err β × St) (k2 : β → St → Except Err γ × St) (s : St) :
    seqE (seqE m k) k2 s = seqE m (fun a => seqE (k a) k2) s := by
  unfold seqE
  cases hms : m s with
  | mk r s1 =>
    cases r with
    | error e => rfl
    | ok a => rfl

theorem loopFrom_add (f : Nat → Bool) (p : Params) :
    ∀ (a b i : Nat) (s : St),
    loopFrom f p i (a + b) s
      = seqE (loopFrom f p i a) (fun _ => loopFrom f p (i + a) b) s := by
  intro a
  induction a with
  | zero =>
    intro b i s
    rw [Nat.zero_add]
    show loopFrom f p i b s = loopFrom f p (i + 0) b s
    rw [Nat.add_zero]
  | succ a ih =>
    intro b i s
    rw [show a + 1 + b = (a + b) + 1 from by omega]
    show seqE (loopBody f p i) (fun _ => loopFrom f p (i + 1) (a + b)) s
      = seqE (seqE (loopBody f p i) (fun _ => loopFrom f p (i + 1) a))
          (fun _ => loopFrom f p (i + (a + 1)) b) s
    rw [seqE_assoc]
    have hcont : (fun x : Unit => loopFrom f p (i + 1) (a + b))
        = (fun x : Unit => seqE (loopFrom f p (i + 1) a)
            (fun _ => loopFrom f p (i + (a + 1)) b)) := by
      funext x s1
      rw [ih b (i + 1) s1, show i + 1 + a = i + (a + 1) from by omega]
    rw [hcont]

/-! ### Behaviour when no call faults -/

theorem cliInstallCall_nofail {f : Nat → Bool} {s : St} (hf : f s.ctr = false) :
    cliInstallCall f s
      = (Except.ok (), { s with ctr := s.ctr + 1,
                                events := s.events ++ [Event.cliInstall "spark"] }) := by
  unfold cliInstallCall
  rw [hf]
  rfl

theorem quotaListCall_nofail {f : Nat → Bool} {s : St} (hf : f s.ctr = false) :
    quotaListCall f s
      = (Except.ok s.quotas, { s with ctr := s.ctr + 1,
                                      events := s.events ++ [Event.quotaList] }) := by
  unfold quotaListCall
  rw [hf]
  rfl

theorem quotaRemoveCall_nofail {f : Nat → Bool} {nm : String} {s : St}
    (hf : f s.ctr = false) :
    quotaRemoveCall f nm s
      = (Except.ok (), { s with ctr := s.ctr + 1,
                                quotas := s.quotas.filter (fun q => !(q.role == nm)),
                                events := s.events ++ [Event.quotaRemove nm] }) := by
  unfold quotaRemoveCall
  rw [hf]
  rfl

theorem quotaCreateCall_nofail {f : Nat → Bool} {nm cp gp me : String} {s : St}
    (hf : f s.ctr = false) :
    quotaCreateCall f nm cp gp me s
      = (Except.ok (), { s with ctr := s.ctr + 1,
                                quotas := s.quotas ++ [⟨nm, cp, gp, me⟩],
                                events := s.events ++ [Event.quotaCreate nm cp gp me] }) := by
  unfold quotaCreateCall
  rw [hf]
  rfl

theorem getPackageRepos_nofail {f : Nat → Bool} {s : St} (hf : f s.ctr = false) :
    getPackageRepos f s
      = (Except.ok s.repos, { s with ctr := s.ctr + 1,
                                     events := s.events ++ [Event.repoList] }) := by
  unfold getPackageRepos
  rw [hf]
  rfl

theorem addPackageRepo_nofail {f : Nat → Bool} {nm url : String} {s : St}
    (hf : f s.ctr = false) :
    addPackageRepo f nm url s
      = (Except.ok (), { s with ctr := s.ctr + 1,
                                repos := s.repos ++ [(nm, url)],
                                events := s.events ++ [Event.repoAdd nm url] }) := by
  unfold addPackageRepo
  rw [hf]
  rfl

theorem installCall_nofail {f : Nat → Bool} {pkg svc : String} {s : St}
    (hf : f s.ctr = false) :
    installCall f pkg svc s
      = (Except.ok (), { s with ctr := s.ctr + 1,
                                installs := s.installs ++ [(pkg, svc, s.options)],
                                events := s.events ++ [Event.install pkg svc] }) := by
  unfold installCall
  rw [hf]
  rfl

/-- `AlwaysOk m`: `m` succeeds from every state. -/
def AlwaysOk {α : Type} (m : St → Except Err α × St) : Prop :=
  ∀ s, ∃ a s', m s = (Except.ok a, s')

theorem alwaysOk_seqE {α β : Type} {m : St → Except Err α × St}
    {k : α → St → Except Err β × St} (hm : AlwaysOk m)
    (hk : ∀ a, AlwaysOk (k a)) : AlwaysOk (seqE m k) := by
  intro s
  obtain ⟨a, s1, h1⟩ := hm s
  obtain ⟨b, s2, h2⟩ := hk a s1
  exact ⟨b, s2, by rw [seqE_ok h1, h2]⟩

theorem alwaysOk_skip : AlwaysOk skip := fun s => ⟨(), s, rfl⟩

theorem alwaysOk_ite {α : Type} {c : Prop} [Decidable c]
    {m k : St → Except Err α × St} (hm : AlwaysOk m) (hk : AlwaysOk k) :
    AlwaysOk (fun s => if c then m s else k s) := by
  intro s
  by_cases h : c
  · simp only [if_pos h]
    exact hm s
  · simp only [if_neg h]
    exact hk s

theorem alwaysOk_no_stdout {α : Type} {body : St → Except Err α × St}
    (hb : AlwaysOk body) : AlwaysOk (no_stdout body) := by
  intro s
  obtain ⟨a, s1, h1⟩ := hb { s with stdout := StdoutTarget.devNull }
  refine ⟨a, { s1 with stdout := s.stdout }, ?_⟩
  unfold no_stdout
  rw [h1]

theorem alwaysOk_repoStep {f : Nat → Bool} (base : String) (repo : Option String)
    (hf : ∀ k, f k = false) : AlwaysOk (repoStep f base repo) := by
  cases repo with
  | none => exact alwaysOk_skip
  | some url =>
    refine alwaysOk_seqE (fun s => ⟨_, _, getPackageRepos_nofail (hf s.ctr)⟩)
      (fun repos => alwaysOk_ite alwaysOk_skip
        (fun s => ⟨_, _, addPackageRepo_nofail (hf s.ctr)⟩))

theorem alwaysOk_create_quota {f : Nat → Bool} (nm cp gp me : String)
    (hf : ∀ k, f k = false) : AlwaysOk (create_quota f nm cp gp me) := by
  unfold create_quota
  refine alwaysOk_seqE
    (alwaysOk_no_stdout (fun s => ⟨_, _, quotaListCall_nofail (hf s.ctr)⟩))
    (fun existing => alwaysOk_seqE
      (alwaysOk_ite (fun s => ⟨_, _, quotaRemoveCall_nofail (hf s.ctr)⟩) alwaysOk_skip)
      (fun _ => fun s => ⟨_, _, quotaCreateCall_nofail (hf s.ctr)⟩))

theorem alwaysOk_quotaStep {f : Nat → Bool} (p : Params) (dr ex : String)
    (hf : ∀ k, f k = false) : AlwaysOk (quotaStep f p dr ex) := by
  unfold quotaStep
  split
  · exact alwaysOk_seqE (alwaysOk_create_quota dr _ _ _ hf)
      (fun _ => alwaysOk_create_quota ex _ _ _ hf)
  · exact alwaysOk_skip

theorem alwaysOk_loopBody {f : Nat → Bool} (p : Params) (i : Nat)
    (hf : ∀ k, f k = false) : AlwaysOk (loopBody f p i) := by
  unfold loopBody
  refine alwaysOk_seqE
    (fun s => alwaysOk_repoStep p.service_name_base p.package_repo hf
      (setSvcName s (svcName p.service_name_base i)))
    (fun _ => alwaysOk_seqE (alwaysOk_quotaStep p _ _ hf)
      (fun _ => alwaysOk_seqE
        (fun s => ⟨_, _, installCall_nofail (hf (setSvcRole s (drvRole p.service_name_base i)).ctr)⟩)
        (fun _ s => ⟨(), _, rfl⟩)))

theorem alwaysOk_loopFrom {f : Nat → Bool} (p : Params) (hf : ∀ k, f k = false) :
    ∀ n i, AlwaysOk (loopFrom f p i n) := by
  intro n
  induction n with
  | zero => intro i; exact alwaysOk_skip
  | succ n ih =>
    intro i
    exact alwaysOk_seqE (alwaysOk_loopBody p i hf) (fun _ => ih (i + 1))

theorem alwaysOk_deploy {f : Nat → Bool} (p : Params) (n : Nat)
    (hf : ∀ k, f k = false) : AlwaysOk (deploy_dispatchers f p n) := by
  intro s
  unfold deploy_dispatchers
  exact alwaysOk_seqE (fun s1 => ⟨_, _, cliInstallCall_nofail (hf s1.ctr)⟩)
    (fun _ => alwaysOk_loopFrom p hf n 0) { s with outLines := [] }

/-! ### Bridges to `List.range` form -/

theorem recordsFrom_eq_map (b : String) :
    ∀ n i, recordsFrom b i n = (List.range n).map (fun j => record b (i + j)) := by
  intro n
  induction n with
  | zero => intro i; rfl
  | succ n ih =>
    intro i
    rw [List.range_succ_eq_map, List.map_cons, List.map_map]
    show record b i :: recordsFrom b (i + 1) n = record b (i + 0) :: _
    rw [ih (i + 1), Nat.add_zero]
    congr 1
    apply List.map_congr_left
    intro j hj
    show record b (i + 1 + j) = record b (i + (j + 1))
    rw [show i + 1 + j = i + (j + 1) from by omega]

theorem installsFrom_eq_map (pkg b : String) (c : Config) :
    ∀ n i, installsFrom pkg b c i n = (List.range n).map (fun j =>
      (pkg, svcName b (i + j),
       withNR c (svcName b (i + j)) (drvRole b (i + j)))) := by
  intro n
  induction n with
  | zero => intro i; rfl
  | succ n ih =>
    intro i
    rw [List.range_succ_eq_map, List.map_cons, List.map_map]
    show (pkg, svcName b i, withNR c (svcName b i) (drvRole b i))
        :: installsFrom pkg b c (i + 1) n
      = (pkg, svcName b (i + 0), withNR c (svcName b (i + 0)) (drvRole b (i + 0))) :: _
    rw [ih (i + 1), Nat.add_zero]
    congr 1
    apply List.map_congr_left
    intro j hj
    show (pkg, svcName b (i + 1 + j), withNR c (svcName b (i + 1 + j)) (drvRole b (i + 1 + j)))
      = (pkg, svcName b (i + (j + 1)), withNR c (svcName b (i + (j + 1))) (drvRole b (i + (j + 1))))
    rw [show i + 1 + j = i + (j + 1) from by omega]

/-! ### Deploy-level decomposition and characterization -/

theorem deploy_cases (f : Nat → Bool) (p : Params) (n : Nat) (s0 : St) :
    (∃ e s1, cliInstallCall f { s0 with outLines := [] } = (Except.error e, s1) ∧
       deploy_dispatchers f p n s0 = (Except.error e, s1)) ∨
    (∃ s1, cliInstallCall f { s0 with outLines := [] } = (Except.ok (), s1) ∧
       deploy_dispatchers f p n s0 = loopFrom f p 0 n s1) := by
  cases hc : cliInstallCall f { s0 with outLines := [] } with
  | mk r s1 =>
    cases r with
    | error e =>
      refine Or.inl ⟨e, s1, rfl, ?_⟩
      unfold deploy_dispatchers
      rw [seqE_err hc]
    | ok a =>
      cases a
      refine Or.inr ⟨s1, rfl, ?_⟩
      unfold deploy_dispatchers
      rw [seqE_ok hc]

theorem deploy_ok_char {f : Nat → Bool} {p : Params} {n : Nat} {s0 s' : St}
    (h : deploy_dispatchers f p n s0 = (Except.ok (), s')) :
    s'.outLines = recordsFrom p.service_name_base 0 n ∧
    s'.installs = s0.installs
      ++ installsFrom p.package_name p.service_name_base s0.options 0 n := by
  rcases deploy_cases f p n s0 with ⟨e, s1, hc, hd⟩ | ⟨s1, hc, hd⟩
  · rw [hd] at h
    injection h with h1 h2
    exact Except.noConfusion h1
  · rw [hd] at h
    have hcc := cliInstallCall_ok hc
    subst hcc
    obtain ⟨ho, hi⟩ := loopFrom_ok h
    constructor
    · exact ho.trans (List.nil_append _)
    · exact hi

/-! ### `create_quota` and `repoStep` under a no-fault oracle -/

theorem create_quota_nofail_mem {f : Nat → Bool} {nm cp gp me : String} {s : St}
    (hf : ∀ k, f k = false) (hm : nm ∈ s.quotas.map Quota.role) :
    (create_quota f nm cp gp me s).1 = Except.ok () ∧
    (create_quota f nm cp gp me s).2.quotas
      = s.quotas.filter (fun q => !(q.role == nm)) ++ [⟨nm, cp, gp, me⟩] ∧
    (create_quota f nm cp gp me s).2.stdout = s.stdout := by
  refine ⟨?_, ?_, ?_⟩ <;>
    simp [create_quota, seqE, no_stdout, quotaListCall, quotaRemoveCall,
      quotaCreateCall, skip, hf, hm]

theorem create_quota_nofail_notmem {f : Nat → Bool} {nm cp gp me : String} {s : St}
    (hf : ∀ k, f k = false) (hm : nm ∉ s.quotas.map Quota.role) :
    (create_quota f nm cp gp me s).1 = Except.ok () ∧
    (create_quota f nm cp gp me s).2.quotas = s.quotas ++ [⟨nm, cp, gp, me⟩] ∧
    (create_quota f nm cp gp me s).2.stdout = s.stdout := by
  refine ⟨?_, ?_, ?_⟩ <;>
    simp [create_quota, seqE, no_stdout, quotaListCall, quotaRemoveCall,
      quotaCreateCall, skip, hf, hm]

theorem repoStep_nofail_mem {f : Nat → Bool} {base url : String} {s : St}
    (hf : ∀ k, f k = false) (hm : url ∈ s.repos.map Prod.snd) :
    repoStep f base (some url) s
      = (Except.ok (), { s with ctr := s.ctr + 1,
                                events := s.events ++ [Event.repoList] }) := by
  simp [repoStep, seqE, getPackageRepos, skip, hf, hm]

theorem repoStep_nofail_notmem {f : Nat → Bool} {base url : String} {s : St}
    (hf : ∀ k, f k = false) (hm : url ∉ s.repos.map Prod.snd) :
    repoStep f base (some url) s
      = (Except.ok (), { s with
          ctr := s.ctr + 1 + 1,
          repos := s.repos ++ [(base ++ "-repo", url)],
          events := (s.events ++ [Event.repoList])
            ++ [Event.repoAdd (base ++ "-repo") url] }) := by
  simp [repoStep, seqE, getPackageRepos, addPackageRepo, skip, hf, hm]

theorem filter_not_filter (l : List Quota) (nm : String) :
    (l.filter (fun q => !(q.role == nm))).filter (fun q => q.role == nm) = [] := by
  induction l with
  | nil => rfl
  | cons a l ih =>
    by_cases h : (a.role == nm) = true
    · simp [List.filter_cons, h, ih]
    · simp [List.filter_cons, h, ih]

/-- C2: reconciling the same quota twice in a row (with the control plane
answering every call) leaves exactly one quota named `nm`, and its spec is
the requested `(cp, gp, me)` — not the one from the first call or any
earlier quota. -/
theorem claim_C2 (f : Nat → Bool) (nm cp gp me : String) (s : St)
    (hf : ∀ k, f k = false) :
    (create_quota f nm cp gp me s).1 = Except.ok () ∧
    (create_quota f nm cp gp me ((create_quota f nm cp gp me s).2)).1
      = Except.ok () ∧
    ((create_quota f nm cp gp me ((create_quota f nm cp gp me s).2)).2.quotas.filter
        (fun q => q.role == nm))
      = [⟨nm, cp, gp, me⟩] := by
  by_cases hm : nm ∈ s.quotas.map Quota.role
  · obtain ⟨h1ok, h1q, _⟩ := @create_quota_nofail_mem f nm cp gp me s hf hm
    have hm1 : nm ∈ ((create_quota f nm cp gp me s).2).quotas.map Quota.role := by
      rw [h1q]
      simp
    obtain ⟨h2ok, h2q, _⟩ := @create_quota_nofail_mem f nm cp gp me _ hf hm1
    refine ⟨h1ok, h2ok, ?_⟩
    rw [h2q, h1q]
    simp [List.filter_append, filter_not_filter, List.filter_cons]
  · obtain ⟨h1ok, h1q, _⟩ := @create_quota_nofail_notmem f nm cp gp me s hf hm
    have hm1 : nm ∈ ((create_quota f nm cp gp me s).2).quotas.map Quota.role := by
      rw [h1q]
      simp
    obtain ⟨h2ok, h2q, _⟩ := @create_quota_nofail_mem f nm cp gp me _ hf hm1
    refine ⟨h1ok, h2ok, ?_⟩
    rw [h2q, h1q]
    simp [List.filter_append, filter_not_filter, List.filter_cons]

/-- Witness for C2 at a concrete input. -/
theorem claim_C2_witness :
    (∀ k : Nat, (fun _ : Nat => false) k = false) ∧
    ((create_quota (fun _ => false) "role-a" "1" "0" "2048.0"
        ((create_quota (fun _ => false) "role-a" "1" "0" "2048.0"
          { ctr := 0, quotas := [⟨"role-a", "9", "9", "9"⟩], repos := [],
            installs := [], events := [], outLines := [],
            options := ⟨⟨"n", "r", []⟩, []⟩,
            stdout := StdoutTarget.real }).2)).2.quotas.filter
        (fun q => q.role == "role-a"))
      = [⟨"role-a", "1", "0", "2048.0"⟩] := by
  refine ⟨fun _ => rfl, ?_⟩
  exact (claim_C2 (fun _ => false) "role-a" "1" "0" "2048.0"
    { ctr := 0, quotas := [⟨"role-a", "9", "9", "9"⟩], repos := [],
      installs := [], events := [], outLines := [],
      options := ⟨⟨"n", "r", []⟩, []⟩,
      stdout := StdoutTarget.real } (fun _ => rfl)).2.2

/-- C7: the repo check-and-register step run twice for the same URL (with
the control plane answering every call, and at most one pre-existing
repository with that URL) leaves exactly one registered repository with
that URL, and the second run registers nothing. -/
theorem claim_C7 (f : Nat → Bool) (base url : String) (s : St)
    (hf : ∀ k, f k = false)
    (hwf : (s.repos.filter (fun r => r.2 == url)).length ≤ 1) :
    (repoStep f base (some url) s).1 = Except.ok () ∧
    (repoStep f base (some url) ((repoStep f base (some url) s).2)).1
      = Except.ok () ∧
    ((repoStep f base (some url) ((repoStep f base (some url) s).2)).2.repos.filter
        (fun r => r.2 == url)).length = 1 ∧
    (repoStep f base (some url) ((repoStep f base (some url) s).2)).2.repos
      = (repoStep f base (some url) s).2.repos := by
  by_cases hm : url ∈ s.repos.map Prod.snd
  · have h1 := @repoStep_nofail_mem f base url s hf hm
    have hrepos1 : (repoStep f base (some url) s).2.repos = s.repos := by rw [h1]
    have hm1 : url ∈ (repoStep f base (some url) s).2.repos.map Prod.snd := by
      rw [hrepos1]
      exact hm
    have h2 := @repoStep_nofail_mem f base url _ hf hm1
    have hrepos2 : (repoStep f base (some url) ((repoStep f base (some url) s).2)).2.repos
        = (repoStep f base (some url) s).2.repos := by rw [h2]
    refine ⟨by rw [h1], by rw [h2], ?_, hrepos2⟩
    rw [hrepos2, hrepos1]
    have hpos : 0 < (s.repos.filter (fun r => r.2 == url)).length := by
      obtain ⟨x, hx, hxu⟩ := List.mem_map.mp hm
      have hxf : x ∈ s.repos.filter (fun r => r.2 == url) :=
        List.mem_filter.mpr ⟨hx, by simp [hxu]⟩
      exact List.length_pos_of_mem hxf
    omega
  · have h1 := @repoStep_nofail_notmem f base url s hf hm
    have hrepos1 : (repoStep f base (some url) s).2.repos
        = s.repos ++ [(base ++ "-repo", url)] := by rw [h1]
    have hm1 : url ∈ (repoStep f base (some url) s).2.repos.map Prod.snd := by
      rw [hrepos1]
      simp
    have h2 := @repoStep_nofail_mem f base url _ hf hm1
    have hrepos2 : (repoStep f base (some url) ((repoStep f base (some url) s).2)).2.repos
        = (repoStep f base (some url) s).2.repos := by rw [h2]
    refine ⟨by rw [h1], by rw [h2], ?_, hrepos2⟩
    rw [hrepos2, hrepos1]
    have hnil : s.repos.filter (fun r => r.2 == url) = [] := by
      rw [List.filter_eq_nil_iff]
      intro a ha
      simp only [Bool.not_eq_true, beq_eq_false_iff_ne]
      intro heq
      exact hm (List.mem_map.mpr ⟨a, ha, heq⟩)
    rw [List.filter_append, hnil]
    simp

/-- Witness for C7 at a concrete input. -/
theorem claim_C7_witness :
    (((repoStep (fun _ => false) "spark-instance" (some "http://repo")
        ((repoStep (fun _ => false) "spark-instance" (some "http://repo")
          { ctr := 0, quotas := [], repos := [("other", "http://other")],
            installs := [], events := [], outLines := [],
            options := ⟨⟨"n", "r", []⟩, []⟩,
            stdout := StdoutTarget.real }).2)).2.repos.filter
        (fun r => r.2 == "http://repo")).length = 1) := by
  exact (claim_C7 (fun _ => false) "spark-instance" "http://repo"
    { ctr := 0, quotas := [], repos := [("other", "http://other")],
      installs := [], events := [], outLines := [],
      options := ⟨⟨"n", "r", []⟩, []⟩,
      stdout := StdoutTarget.real } (fun _ => rfl) (by decide)).2.2.1

/-- C6: when an options-file path is supplied (a non-empty path string)
and no file exists there, the run exits with a configuration error
(`none`) and the state is untouched: no control-plane call was made, and
the output file was never opened or truncated. -/
theorem claim_C6 (f : Nat → Bool) (fs : String → Bool) (load : String → Config)
    (defaults : Config) (fpath : String) (p : Params) (n : Nat) (s : St)
    (hne : fpath ≠ "") (hmiss : fs fpath = false) :
    main_run f fs load defaults (some fpath) p n s = (none, s) ∧
    (main_run f fs load defaults (some fpath) p n s).2.events = s.events ∧
    (main_run f fs load defaults (some fpath) p n s).2.outLines = s.outLines ∧
    (main_run f fs load defaults (some fpath) p n s).2.ctr = s.ctr := by
  have h : main_run f fs load defaults (some fpath) p n s = (none, s) := by
    simp [main_run, hne, hmiss]
  exact ⟨h, by rw [h], by rw [h], by rw [h]⟩

/-- Witness for C6 at a concrete input. -/
theorem claim_C6_witness :
    main_run (fun _ => false) (fun _ => false) (fun _ => ⟨⟨"n", "r", []⟩, []⟩)
      ⟨⟨"n", "r", []⟩, []⟩ (some "missing.json")
      { service_name_base := "spark-instance", package_name := "spark",
        package_repo := none, create_quotas := true,
        quota_drivers_cpus := "1", quota_drivers_gpus := "0",
        quota_drivers_mem := "2048.0", quota_executors_cpus := "1",
        quota_executors_gpus := "0", quota_executors_mem := "1024.0" } 3
      { ctr := 0, quotas := [], repos := [], installs := [], events := [],
        outLines := ["stale"], options := ⟨⟨"n", "r", []⟩, []⟩,
        stdout := StdoutTarget.real }
      = (none, { ctr := 0, quotas := [], repos := [], installs := [],
                 events := [], outLines := ["stale"],
                 options := ⟨⟨"n", "r", []⟩, []⟩,
                 stdout := StdoutTarget.real }) := by
  exact (claim_C6 (fun _ => false) (fun _ => false) (fun _ => ⟨⟨"n", "r", []⟩, []⟩)
    ⟨⟨"n", "r", []⟩, []⟩ "missing.json"
    { service_name_base := "spark-instance", package_name := "spark",
      package_repo := none, create_quotas := true,
      quota_drivers_cpus := "1", quota_drivers_gpus := "0",
      quota_drivers_mem := "2048.0", quota_executors_cpus := "1",
      quota_executors_gpus := "0", quota_executors_mem := "1024.0" } 3
    { ctr := 0, quotas := [], repos := [], installs := [], events := [],
      outLines := ["stale"], options := ⟨⟨"n", "r", []⟩, []⟩,
      stdout := StdoutTarget.real }
    (by decide) rfl).1

/-- C9: if the body wrapped by `no_stdout` raises (and the body itself
leaves `sys.stdout` pointing at `/dev/null`, as the quota-list call
does), the error propagates and `sys.stdout` is not restored: it remains
redirected to `/dev/null`. -/
theorem claim_C9 {α : Type} (body : St → Except Err α × St) (s : St) (e : Err)
    (hpres : (body { s with stdout := StdoutTarget.devNull }).2.stdout
      = StdoutTarget.devNull)
    (herr : (body { s with stdout := StdoutTarget.devNull }).1 = Except.error e) :
    (no_stdout body s).1 = Except.error e ∧
    (no_stdout body s).2.stdout = StdoutTarget.devNull := by
  unfold no_stdout
  cases hb : body { s with stdout := StdoutTarget.devNull } with
  | mk r s1 =>
    rw [hb] at hpres herr
    cases r with
    | ok a =>
      have herr' : Except.ok a = Except.error e := herr
      exact Except.noConfusion herr'
    | error e1 =>
      have herr' : Except.error e1 = Except.error e := herr
      injection herr' with he
      subst he
      exact ⟨rfl, hpres⟩

/-- Witness for C9: a failing quota-list call inside `no_stdout` leaves
stdout pointing at `/dev/null`. -/
theorem claim_C9_witness :
    (no_stdout (quotaListCall (fun _ => true))
      { ctr := 0, quotas := [], repos := [], installs := [], events := [],
        outLines := [], options := ⟨⟨"n", "r", []⟩, []⟩,
        stdout := StdoutTarget.real }).2.stdout = StdoutTarget.devNull := by
  exact (claim_C9 (quotaListCall (fun _ => true))
    { ctr := 0, quotas := [], repos := [], installs := [], events := [],
      outLines := [], options := ⟨⟨"n", "r", []⟩, []⟩,
      stdout := StdoutTarget.real } (Err.controlPlane 0) rfl rfl).2

/-- C10: the output file is opened with mode "w" (truncating it) before
any control-plane call — even a run whose very first call fails has
already emptied the file and has made no successful call — and a run
with zero dispatchers still truncates the file, leaves it empty, and
issues the one-time CLI bootstrap. -/
theorem claim_C10 (p : Params) (s0 : St) (f g : Nat → Bool) (n : Nat)
    (hfail : f s0.ctr = true) (hg : ∀ k, g k = false) :
    ((deploy_dispatchers f p n s0).1 = Except.error (Err.controlPlane s0.ctr) ∧
     (deploy_dispatchers f p n s0).2.outLines = [] ∧
     (deploy_dispatchers f p n s0).2.events = s0.events) ∧
    ((deploy_dispatchers g p 0 s0).1 = Except.ok () ∧
     (deploy_dispatchers g p 0 s0).2.outLines = [] ∧
     (deploy_dispatchers g p 0 s0).2.events
       = s0.events ++ [Event.cliInstall "spark"]) := by
  constructor
  · have h0 : f ({ s0 with outLines := [] } : St).ctr = true := hfail
    have hc : cliInstallCall f { s0 with outLines := [] }
        = (Except.error (Err.controlPlane s0.ctr),
           { s0 with outLines := [], ctr := s0.ctr + 1 }) := by
      unfold cliInstallCall
      rw [h0]
      rfl
    have hd : deploy_dispatchers f p n s0
        = (Except.error (Err.controlPlane s0.ctr),
           { s0 with outLines := [], ctr := s0.ctr + 1 }) := by
      unfold deploy_dispatchers
      rw [seqE_err hc]
    exact ⟨by rw [hd], by rw [hd], by rw [hd]⟩
  · have h0 : g ({ s0 with outLines := [] } : St).ctr = false := hg s0.ctr
    have hc : cliInstallCall g { s0 with outLines := [] }
        = (Except.ok (),
           { s0 with outLines := [], ctr := s0.ctr + 1,
                     events := s0.events ++ [Event.cliInstall "spark"] }) := by
      unfold cliInstallCall
      rw [h0]
      rfl
    have hd : deploy_dispatchers g p 0 s0
        = (Except.ok (),
           { s0 with outLines := [], ctr := s0.ctr + 1,
                     events := s0.events ++ [Event.cliInstall "spark"] }) := by
      unfold deploy_dispatchers
      rw [seqE_ok hc]
      rfl
    exact ⟨by rw [hd], by rw [hd], by rw [hd]⟩

/-- Witness for C10 at a concrete input. -/
theorem claim_C10_witness :
    (deploy_dispatchers (fun _ => true)
      { service_name_base := "spark-instance", package_name := "spark",
        package_repo := none, create_quotas := true,
        quota_drivers_cpus := "1", quota_drivers_gpus := "0",
        quota_drivers_mem := "2048.0", quota_executors_cpus := "1",
        quota_executors_gpus := "0", quota_executors_mem := "1024.0" } 2
      { ctr := 0, quotas := [], repos := [], installs := [], events := [],
        outLines := ["stale"], options := ⟨⟨"n", "r", []⟩, []⟩,
        stdout := StdoutTarget.real }).2.outLines = [] ∧
    (deploy_dispatchers (fun _ => false)
      { service_name_base := "spark-instance", package_name := "spark",
        package_repo := none, create_quotas := true,
        quota_drivers_cpus := "1", quota_drivers_gpus := "0",
        quota_drivers_mem := "2048.0", quota_executors_cpus := "1",
        quota_executors_gpus := "0", quota_executors_mem := "1024.0" } 0
      { ctr := 0, quotas := [], repos := [], installs := [], events := [],
        outLines := ["stale"], options := ⟨⟨"n", "r", []⟩, []⟩,
        stdout := StdoutTarget.real }).2.events = [Event.cliInstall "spark"] := by
  have h := claim_C10
    { service_name_base := "spark-instance", package_name := "spark",
      package_repo := none, create_quotas := true,
      quota_drivers_cpus := "1", quota_drivers_gpus := "0",
      quota_drivers_mem := "2048.0", quota_executors_cpus := "1",
      quota_executors_gpus := "0", quota_executors_mem := "1024.0" }
    { ctr := 0, quotas := [], repos := [], installs := [], events := [],
      outLines := ["stale"], options := ⟨⟨"n", "r", []⟩, []⟩,
      stdout := StdoutTarget.real }
    (fun _ => true) (fun _ => false) 2 rfl (fun _ => rfl)
  exact ⟨h.1.2.1, h.2.2.2⟩

/-! ### Concrete fixtures for witnesses and counterexamples -/

/-- A sample options mapping (role `*` as with the `--role` default). -/
def fixtureOptions : Config :=
  ⟨⟨"placeholder", "*", [("cpus", "1")]⟩, [("hdfs", "")]⟩

/-- A sample starting state with a stale line in the output file. -/
def fixtureState : St :=
  { ctr := 0, quotas := [], repos := [], installs := [], events := [],
    outLines := ["stale"], options := fixtureOptions,
    stdout := StdoutTarget.real }

/-- Sample run parameters matching the script defaults. -/
def fixtureParams : Params :=
  { service_name_base := "spark-instance", package_name := "spark",
    package_repo := none, create_quotas := true,
    quota_drivers_cpus := "1", quota_drivers_gpus := "0",
    quota_drivers_mem := "2048.0", quota_executors_cpus := "1",
    quota_executors_gpus := "0", quota_executors_mem := "1024.0" }

/-- C5: when every control-plane call succeeds, a run with `n` dispatchers
succeeds and writes exactly `n` lines, line `i` (0-based) being
`base-i,base-i-drivers-role,base-i-executors-role\n`, in iteration
order. -/
theorem claim_C5 (f : Nat → Bool) (p : Params) (n : Nat) (s0 : St)
    (hf : ∀ k, f k = false) :
    (deploy_dispatchers f p n s0).1 = Except.ok () ∧
    (deploy_dispatchers f p n s0).2.outLines
      = (List.range n).map (fun i =>
          svcName p.service_name_base i ++ "," ++ drvRole p.service_name_base i
            ++ "," ++ exeRole p.service_name_base i ++ "\n") ∧
    ∀ i, i < n → ((deploy_dispatchers f p n s0).2.outLines)[i]?
      = some (record p.service_name_base i) := by
  obtain ⟨a, s', hd⟩ := alwaysOk_deploy p n hf s0
  cases a
  obtain ⟨ho, _⟩ := deploy_ok_char hd
  have hout : (deploy_dispatchers f p n s0).2.outLines
      = (List.range n).map (fun i => record p.service_name_base i) := by
    rw [hd]
    show s'.outLines = _
    rw [ho, recordsFrom_eq_map]
    apply List.map_congr_left
    intro j hj
    rw [Nat.zero_add]
  refine ⟨by rw [hd], by rw [hout]; rfl, ?_⟩
  intro i hi
  rw [hout, List.getElem?_map, List.getElem?_range hi]
  rfl

/-- Witness for C5 at a concrete input. -/
theorem claim_C5_witness :
    (deploy_dispatchers (fun _ => false) fixtureParams 2 fixtureState).1
      = Except.ok () ∧
    (deploy_dispatchers (fun _ => false) fixtureParams 2 fixtureState).2.outLines
      = ["spark-instance-0,spark-instance-0-drivers-role,spark-instance-0-executors-role\n",
         "spark-instance-1,spark-instance-1-drivers-role,spark-instance-1-executors-role\n"] := by
  have h := claim_C5 (fun _ => false) fixtureParams 2 fixtureState (fun _ => rfl)
  exact ⟨h.1, by rw [h.2.1]; rfl⟩

/-- C3: in a successful run with `create_quotas = true`, the configuration
submitted for instance `i` is the base configuration with `service.name`
overwritten to `base-i` and `service.role` overwritten to that instance's
drivers role — for every `i`, with no value leaking from another
iteration. -/
theorem claim_C3 (f : Nat → Bool) (p : Params) (n : Nat) (s0 : St)
    (hq : p.create_quotas = true)
    (hok : (deploy_dispatchers f p n s0).1 = Except.ok ()) :
    (deploy_dispatchers f p n s0).2.installs
      = s0.installs ++ (List.range n).map (fun i =>
          (p.package_name, svcName p.service_name_base i,
           withNR s0.options (svcName p.service_name_base i)
             (drvRole p.service_name_base i))) ∧
    ∀ i, i < n →
      ((deploy_dispatchers f p n s0).2.installs)[s0.installs.length + i]?
        = some (p.package_name, svcName p.service_name_base i,
            withNR s0.options (svcName p.service_name_base i)
              (drvRole p.service_name_base i)) ∧
      (withNR s0.options (svcName p.service_name_base i)
        (drvRole p.service_name_base i)).service.name
        = svcName p.service_name_base i ∧
      (withNR s0.options (svcName p.service_name_base i)
        (drvRole p.service_name_base i)).service.role
        = drvRole p.service_name_base i := by
  have hd : deploy_dispatchers f p n s0
      = (Except.ok (), (deploy_dispatchers f p n s0).2) := by
    rw [← hok]
  obtain ⟨_, hi⟩ := deploy_ok_char hd
  have hinst : (deploy_dispatchers f p n s0).2.installs
      = s0.installs ++ (List.range n).map (fun i =>
          (p.package_name, svcName p.service_name_base i,
           withNR s0.options (svcName p.service_name_base i)
             (drvRole p.service_name_base i))) := by
    rw [hi, installsFrom_eq_map]
    congr 1
    apply List.map_congr_left
    intro j hj
    rw [Nat.zero_add]
  refine ⟨hinst, ?_⟩
  intro i hi2
  refine ⟨?_, rfl, rfl⟩
  rw [hinst, List.getElem?_append_right (by omega),
    show s0.installs.length + i - s0.installs.length = i from by omega,
    List.getElem?_map, List.getElem?_range hi2]
  rfl

/-- Witness for C3 at a concrete input. -/
theorem claim_C3_witness :
    (deploy_dispatchers (fun _ => false) fixtureParams 1 fixtureState).2.installs
      = fixtureState.installs ++ (List.range 1).map (fun i =>
          ("spark", svcName "spark-instance" i,
           withNR fixtureState.options (svcName "spark-instance" i)
             (drvRole "spark-instance" i))) := by
  have hok : (deploy_dispatchers (fun _ => false) fixtureParams 1 fixtureState).1
      = Except.ok () := by
    obtain ⟨a, s', hd⟩ := alwaysOk_deploy fixtureParams 1 (fun _ => rfl) fixtureState
    cases a
    rw [hd]
  exact (claim_C3 (fun _ => false) fixtureParams 1 fixtureState rfl hok).1

/-- Counterexample to C4 as stated: with `create_quotas = false` the
drivers role is still assigned into `service.role` before the install
(the assignment sits outside the `if create_quotas:` block in the
source), so the role does not pass through unchanged. -/
theorem claim_C4_counterexample :
    ({ fixtureParams with create_quotas := false } : Params).create_quotas = false ∧
    fixtureState.options.service.role = "*" ∧
    (deploy_dispatchers (fun _ => false)
        { fixtureParams with create_quotas := false } 1 fixtureState).2.installs.map
      (fun t => t.2.2.service.role) = ["spark-instance-0-drivers-role"] ∧
    ("spark-instance-0-drivers-role" : String) ≠ "*" := by
  refine ⟨rfl, rfl, rfl, by decide⟩

/-- C4 as amended: the drivers-role assignment into `service.role` is
unconditional — even when `create_quotas = false`, every submitted
configuration has `service.role = drivers_role(i)` and `service.name =
base-i`; every field other than `service.name` and `service.role` passes
through unchanged. -/
theorem claim_C4_amended (f : Nat → Bool) (p : Params) (n : Nat) (s0 : St)
    (hq : p.create_quotas = false)
    (hok : (deploy_dispatchers f p n s0).1 = Except.ok ()) :
    (deploy_dispatchers f p n s0).2.installs
      = s0.installs ++ (List.range n).map (fun i =>
          (p.package_name, svcName p.service_name_base i,
           withNR s0.options (svcName p.service_name_base i)
             (drvRole p.service_name_base i))) ∧
    ∀ i, i < n →
      (withNR s0.options (svcName p.service_name_base i)
        (drvRole p.service_name_base i)).service.role
        = drvRole p.service_name_base i ∧
      (withNR s0.options (svcName p.service_name_base i)
        (drvRole p.service_name_base i)).service.other
        = s0.options.service.other ∧
      (withNR s0.options (svcName p.service_name_base i)
        (drvRole p.service_name_base i)).other
        = s0.options.other := by
  have hd : deploy_dispatchers f p n s0
      = (Except.ok (), (deploy_dispatchers f p n s0).2) := by
    rw [← hok]
  obtain ⟨_, hi⟩ := deploy_ok_char hd
  constructor
  · rw [hi, installsFrom_eq_map]
    congr 1
    apply List.map_congr_left
    intro j hj
    rw [Nat.zero_add]
  · intro i hi2
    exact ⟨rfl, rfl, rfl⟩

/-- Parameters with quota creation disabled. -/
def fixtureParamsNoQuota : Params := { fixtureParams with create_quotas := false }

/-- Witness for the amended C4 at a concrete input. -/
theorem claim_C4_witness :
    (deploy_dispatchers (fun _ => false) fixtureParamsNoQuota 1 fixtureState).2.installs
      = fixtureState.installs ++ (List.range 1).map (fun i =>
          ("spark", svcName "spark-instance" i,
           withNR fixtureState.options (svcName "spark-instance" i)
             (drvRole "spark-instance" i))) := by
  have hok : (deploy_dispatchers (fun _ => false) fixtureParamsNoQuota 1 fixtureState).1
      = Except.ok () := by
    obtain ⟨a, s', hd⟩ := alwaysOk_deploy fixtureParamsNoQuota 1 (fun _ => rfl) fixtureState
    cases a
    rw [hd]
  exact (claim_C4_amended (fun _ => false) fixtureParamsNoQuota
    1 fixtureState rfl hok).1

/-- Parameters requesting the package name `mypack`, quotas disabled. -/
def fixtureParamsMypack : Params :=
  { fixtureParams with package_name := "mypack", create_quotas := false }

/-- Counterexample to C8 as stated: the CLI bootstrap installs the CLI
for the hard-coded package `"spark"`, not for the requested package name
(`"mypack"` here). -/
theorem claim_C8_counterexample :
    fixtureParamsMypack.package_name = "mypack" ∧
    (deploy_dispatchers (fun _ => false) fixtureParamsMypack
        1 fixtureState).2.events
      = [Event.cliInstall "spark", Event.install "mypack" "spark-instance-0"] ∧
    Event.cliInstall "mypack" ∉
      (deploy_dispatchers (fun _ => false) fixtureParamsMypack
        1 fixtureState).2.events := by
  refine ⟨rfl, rfl, by decide⟩

/-- C8 as amended: every run whose CLI bootstrap call succeeds issues
exactly one CLI bootstrap, as its first control-plane action, and it is
always for the hard-coded package `"spark"` regardless of the request's
package-name option. -/
theorem claim_C8_amended (f : Nat → Bool) (p : Params) (n : Nat) (s0 : St)
    (hcli : f s0.ctr = false) :
    ∃ rest, (deploy_dispatchers f p n s0).2.events
        = s0.events ++ Event.cliInstall "spark" :: rest ∧
      countCli rest = 0 := by
  have h0 : f ({ s0 with outLines := [] } : St).ctr = false := hcli
  have hc := cliInstallCall_nofail h0
  have hd : deploy_dispatchers f p n s0
      = loopFrom f p 0 n
          { s0 with
            outLines := [],
            ctr := s0.ctr + 1,
            events := s0.events ++ [Event.cliInstall "spark"] } := by
    unfold deploy_dispatchers
    rw [seqE_ok hc]
  obtain ⟨les, he, hcnt⟩ := quietExt_loopFrom f p n 0
    { s0 with
      outLines := [],
      ctr := s0.ctr + 1,
      events := s0.events ++ [Event.cliInstall "spark"] }
  refine ⟨les, ?_, hcnt⟩
  rw [hd, he]
  show (s0.events ++ [Event.cliInstall "spark"]) ++ les = _
  rw [List.append_assoc, List.singleton_append]

/-- Witness for the amended C8 at a concrete input. -/
theorem claim_C8_witness :
    ∃ rest, (deploy_dispatchers (fun _ => false) fixtureParams 1 fixtureState).2.events
        = fixtureState.events ++ Event.cliInstall "spark" :: rest ∧
      countCli rest = 0 :=
  claim_C8_amended (fun _ => false) fixtureParams 1 fixtureState rfl

/-- C1: if the first `k` instances of a run deploy cleanly but a
control-plane error strikes while instance `k` is being processed
(`k < n`), the whole `n`-instance run stops with that same error and the
output file holds exactly the records of instances `0..k-1`, in order —
nothing for instance `k` or any later instance. -/
theorem claim_C1 (f : Nat → Bool) (p : Params) (k n : Nat) (s0 : St)
    (hk : k < n)
    (hok : (deploy_dispatchers f p k s0).1 = Except.ok ())
    (herr : (deploy_dispatchers f p (k + 1) s0).1 ≠ Except.ok ()) :
    deploy_dispatchers f p n s0 = deploy_dispatchers f p (k + 1) s0 ∧
    (deploy_dispatchers f p n s0).1 ≠ Except.ok () ∧
    (deploy_dispatchers f p n s0).2.outLines
      = (List.range k).map (fun j => record p.service_name_base j) := by
  rcases deploy_cases f p k s0 with ⟨e, s1, hc, hd⟩ | ⟨s1, hc, hd⟩
  · rw [hd] at hok
    exact absurd hok (by simp)
  · have hdm : ∀ m, deploy_dispatchers f p m s0 = loopFrom f p 0 m s1 := by
      intro m
      rcases deploy_cases f p m s0 with ⟨e2, s2, hc2, hd2⟩ | ⟨s2, hc2, hd2⟩
      · rw [hc] at hc2
        injection hc2 with hx hy
        exact Except.noConfusion hx
      · rw [hc] at hc2
        injection hc2 with hx hy
        subst hy
        exact hd2
    have hok1 : (loopFrom f p 0 k s1).1 = Except.ok () := by
      rw [← hdm k]
      exact hok
    cases hlf : loopFrom f p 0 k s1 with
    | mk r sk =>
      rw [hlf] at hok1
      have hr : r = Except.ok () := hok1
      subst hr
      cases hb : loopBody f p k sk with
      | mk rb sb =>
        cases rb with
        | ok u =>
          cases u
          exfalso
          apply herr
          rw [hdm (k + 1), loopFrom_add f p k 1 0 s1, seqE_ok hlf, Nat.zero_add]
          show (seqE (loopBody f p k) (fun _ => loopFrom f p (k + 1) 0) sk).1
            = Except.ok ()
          rw [seqE_ok hb]
          rfl
        | error e =>
          have h1err : loopFrom f p 0 (k + 1) s1 = (Except.error e, sb) := by
            rw [loopFrom_add f p k 1 0 s1, seqE_ok hlf, Nat.zero_add]
            show seqE (loopBody f p k) (fun _ => loopFrom f p (k + 1) 0) sk = _
            rw [seqE_err hb]
          have hn : n = (k + 1) + (n - (k + 1)) := by omega
          have hnerr : loopFrom f p 0 n s1 = (Except.error e, sb) := by
            rw [hn, loopFrom_add f p (k + 1) (n - (k + 1)) 0 s1, seqE_err h1err]
          refine ⟨?_, ?_, ?_⟩
          · rw [hdm n, hdm (k + 1), hnerr, h1err]
          · rw [hdm n, hnerr]
            simp
          · rw [hdm n, hnerr]
            have hbo : sb.outLines = sk.outLines := loopBody_err_out hb
            obtain ⟨ho, _⟩ := loopFrom_ok hlf
            have hcs := cliInstallCall_ok hc
            have hs1out : s1.outLines = [] := by rw [hcs]
            show sb.outLines = _
            rw [hbo, ho, hs1out, List.nil_append, recordsFrom_eq_map]
            apply List.map_congr_left
            intro j hj
            rw [Nat.zero_add]

/-- Witness for C1: with quota creation disabled, failing the third
control-plane call (the install submission of instance 1) in a
3-instance run leaves exactly instance 0's record in the output file. -/
theorem claim_C1_witness :
    (deploy_dispatchers (fun m => m == 2) fixtureParamsNoQuota 3 fixtureState).2.outLines
      = (List.range 1).map (fun j => record "spark-instance" j) := by
  have herr : (deploy_dispatchers (fun m => m == 2) fixtureParamsNoQuota 2 fixtureState).1
      ≠ Except.ok () := by
    intro hcontra
    have h0 : (deploy_dispatchers (fun m => m == 2) fixtureParamsNoQuota 2 fixtureState).1
        = Except.error (Err.controlPlane 2) := rfl
    rw [h0] at hcontra
    exact Except.noConfusion hcontra
  exact (claim_C1 (fun m => m == 2) fixtureParamsNoQuota 1 3 fixtureState
    (by decide) rfl herr).2.2

end DeployDispatchers
